import Mathlib

/-!
Verification of the spreadsheet-normalization and audit-log core of the
`armyaf` inventory tracker.

The embedding follows `src/utils/spreadsheetUtils.ts`,
`src/utils/logUtils.ts`, `src/utils/validationUtils.ts` (`calculateQtyShort`)
and `src/App.tsx` (`handleItemDelete`).  Spreadsheet cells are modelled by a
closed sum type (string, number, boolean); a missing cell / JS `undefined` is
`Option.none`.  JS numbers are idealised as rationals; `parseFloat` returning
`NaN` is modelled as `Option.none`.  A "row" is the association list of header
keys to cell values that `XLSX.utils.sheet_to_json` hands to `parseRow`.
-/

namespace Armyaf

/-- A raw spreadsheet cell value (the closed `CellValue` sum type of the
row-source collaborator): string, number or boolean. -/
inductive CellValue
  | str (s : String)
  | num (q : ℚ)
  | boolVal (b : Bool)
deriving DecidableEq

/-- A row handed to `parseRow`: a mapping from raw header text to cell value,
modelled as an association list in object-key order. -/
abbrev Row : Type := List (String × CellValue)

/-- JS truthiness of a cell value: empty string, zero and `false` are falsy. -/
def CellValue.truthy : CellValue → Bool
  | .str s => decide (s ≠ "")
  | .num q => decide (q ≠ 0)
  | .boolVal b => b

/-- `CellValue.isStr c` holds when the cell is a string. -/
def CellValue.isStr : CellValue → Bool
  | .str _ => true
  | _ => false

/-- The JS expression `v || d` applied to an optional cell value `v`
(`undefined` and falsy values fall back to the default `d`). -/
def jsOr (v : Option CellValue) (d : CellValue) : CellValue :=
  match v with
  | none => d
  | some x => if x.truthy then x else d

/-- Digits to a natural number, most significant first. -/
def digitsToNat (cs : List Char) : Nat :=
  cs.foldl (fun acc c => acc * 10 + (c.toNat - '0'.toNat)) 0

/-- Apply an optional exponent suffix (`e`/`E` sign digits) to a parsed
mantissa, as JS `parseFloat` does; a malformed exponent is ignored. -/
def applyExp (mant : ℚ) (cs : List Char) : ℚ :=
  let (negExp, cs1) :=
    match cs with
    | '-' :: rest => (true, rest)
    | '+' :: rest => (false, rest)
    | _ => (false, cs)
  let eds := cs1.takeWhile Char.isDigit
  if eds.isEmpty then mant
  else if negExp then mant / (10 : ℚ) ^ digitsToNat eds
  else mant * (10 : ℚ) ^ digitsToNat eds

/-- JS `parseFloat` on a string: skip leading whitespace, optional sign,
longest decimal-number prefix; `none` models `NaN`. -/
def parseFloatChars (cs : List Char) : Option ℚ :=
  let cs0 := cs.dropWhile (fun c => c == ' ' || c == '\t' || c == '\n' || c == '\r')
  let (sign, cs1) :=
    match cs0 with
    | '-' :: rest => ((-1 : ℚ), rest)
    | '+' :: rest => ((1 : ℚ), rest)
    | _ => ((1 : ℚ), cs0)
  let intPart := cs1.takeWhile Char.isDigit
  let cs2 := cs1.dropWhile Char.isDigit
  let (fracPart, cs3) :=
    match cs2 with
    | '.' :: rest => (rest.takeWhile Char.isDigit, rest.dropWhile Char.isDigit)
    | _ => ([], cs2)
  if intPart.isEmpty && fracPart.isEmpty then none
  else
    let mant : ℚ := (digitsToNat (intPart ++ fracPart) : ℚ) / (10 : ℚ) ^ fracPart.length
    let withExp : ℚ :=
      match cs3 with
      | 'e' :: rest => applyExp mant rest
      | 'E' :: rest => applyExp mant rest
      | _ => mant
    some (sign * withExp)

/-- JS `parseFloat` applied to an optional cell value; `none` models `NaN`
(`parseFloat(undefined)` and `parseFloat` of a boolean are `NaN`; a number
round-trips through its string rendering unchanged). -/
def jsParseFloat : Option CellValue → Option ℚ
  | some (.num q) => some q
  | some (.str s) => parseFloatChars s.data
  | some (.boolVal _) => none
  | none => none

/-- The JS expression `parseFloat(v) || 0`: `NaN` (and `0` itself) becomes `0`. -/
def jsNumOrZero (v : Option CellValue) : ℚ :=
  (jsParseFloat v).getD 0

/-- The `FIELD_MAPPINGS` table shape: canonical field name to ordered list of
acceptable header spellings (`spreadsheetUtils.ts` lines 6-56). -/
structure FieldMappingsT where
  nsn : List String
  lin : List String
  name : List String
  ui : List String
  qtyAuthorized : List String
  qtyOnHand : List String
  qtyShort : List String
  serialNumber : List String
  location : List String
  conditionCode : List String
  lastVerified : List String
  isFlagged : List String
  notes : List String

/-- `FIELD_MAPPINGS` of `spreadsheetUtils.ts`, verbatim. -/
def FIELD_MAPPINGS : FieldMappingsT where
  nsn := ["NSN", "Stock Number", "National Stock Number", "NSN #", "Item NSN"]
  lin := ["LIN", "Line Item Number", "Line #", "LIN Code", "Item LIN", "Line Number"]
  name := ["Nomenclature", "Item Description", "Description", "Item Name", "End Item Name",
    "Nomenclature/Description", "Equipment Description", "Item desc"]
  ui := ["UI", "Unit of Issue", "Issue Unit", "U/I", "Qty Unit", "Distribution Unit"]
  qtyAuthorized := ["Qty Authorized", "Authorized Qty", "Authorized Quantity", "Allowance",
    "Required Quantity", "QTY AUTH", "Qty Req"]
  qtyOnHand := ["Qty On Hand", "On Hand", "OH Qty", "Current Qty", "Actual Count",
    "QTY OH", "Present Qty"]
  qtyShort := ["Qty Short", "Shortage", "QTY SHORT", "Difference", "Qty Deficit",
    "Missing Qty", "Shortfall"]
  serialNumber := ["Serial Number", "SN", "S/N", "Ser No", "Serial No.", "Serial"]
  location := ["Location", "Sub-Hand Receipt Holder", "SHR Holder", "Custodian",
    "Holder", "Assigned To", "Room", "Building", "Responsible Party", "Storage Location"]
  conditionCode := ["Condition Code", "Cond Code", "Cond", "Status", "Serviceability",
    "Condition", "Equipment Status"]
  lastVerified := ["Date Acquired", "Date Verified", "Last Verified", "Inventory Date",
    "Acquisition Date", "Date of Inventory", "Verification Date", "Last Checked", "Date Entered"]
  isFlagged := ["Flagged", "Is Flagged", "Flag", "Marked", "Highlight", "Attention",
    "Needs Attention", "Issue", "Problem", "Concern"]
  notes := ["Notes", "Item Notes", "Description", "Item Description", "End Item Description"]

/-- JS `toLowerCase`, modelled over the character list (ASCII case folding)
so that it computes by kernel reduction. -/
def toLowerJS (s : String) : String := ⟨s.data.map Char.toLower⟩

/-- An ASCII whitespace character, as trimmed by JS `trim`. -/
def isSpaceChar (c : Char) : Bool := c == ' ' || c == '\t' || c == '\n' || c == '\r'

/-- JS `trim`, modelled over the character list. -/
def trimJS (s : String) : String :=
  ⟨((s.data.dropWhile isSpaceChar).reverse.dropWhile isSpaceChar).reverse⟩

/-- The case-insensitive map of the row's keys built by `findFieldValue`
(`new Map(Object.keys(row).map(key => [key.toLowerCase(), key]))`): for a
lower-cased header, the original-case key, the last duplicate winning as in a
JS `Map` built from entries. -/
def rowKeysMapGet (row : Row) (lowerName : String) : Option String :=
  row.foldl (fun acc kv => if toLowerJS kv.1 = lowerName then some kv.1 else acc) none

/-- `findFieldValue` of `spreadsheetUtils.ts` lines 59-74: first alias whose
lower-cased spelling is a key of the case-insensitive row-key map wins, and
the row's value under the original-case key is returned; otherwise
`undefined`. -/
def findFieldValue (row : Row) (fieldNames : List String) : Option CellValue :=
  match fieldNames with
  | [] => none
  | name :: rest =>
    match rowKeysMapGet row (toLowerJS name) with
    | some key => List.lookup key row
    | none => findFieldValue row rest

/-- `parseFlagValue` of `spreadsheetUtils.ts` lines 77-85. -/
def parseFlagValue : Option CellValue → Bool
  | some (.boolVal b) => b
  | some (.str s) =>
    ["yes", "true", "y", "1", "flagged", "mark", "highlight"].contains (trimJS (toLowerJS s))
  | some (.num q) => decide (q = 1)
  | none => false

/-- `calculateQtyShort` of `validationUtils.ts` lines 292-294. -/
def calculateQtyShort (qtyAuthorized qtyOnHand : ℚ) : ℚ :=
  max 0 (qtyAuthorized - qtyOnHand)

/-- The runtime shape of the object literal `parseRow` actually builds
(`spreadsheetUtils.ts` lines 121-145).  The literal never assigns `photos`,
so at runtime that property is `undefined`: modelled as `Option` with
`parseRow` producing `none`.  String-typed interface fields receive the raw
resolved cell value (which need not be a string), so they are `CellValue`. -/
@[ext]
structure ParsedItem where
  isFlagged : Bool
  name : CellValue
  lin : CellValue
  nsn : CellValue
  qtyAuthorized : ℚ
  qtyOnHand : ℚ
  qtyShort : ℚ
  ui : CellValue
  notes : CellValue
  photos : Option (List String)
deriving DecidableEq

/-- The object literal at the head of `parseRow` (before the conditional
`qtyShort` recomputation). -/
def parseRowBase (row : Row) : ParsedItem where
  isFlagged := parseFlagValue (findFieldValue row FIELD_MAPPINGS.isFlagged)
  name := jsOr (findFieldValue row FIELD_MAPPINGS.name) (.str "")
  lin := jsOr (findFieldValue row FIELD_MAPPINGS.lin) (.str "")
  nsn := jsOr (findFieldValue row FIELD_MAPPINGS.nsn) (.str "")
  qtyAuthorized := jsNumOrZero (findFieldValue row FIELD_MAPPINGS.qtyAuthorized)
  qtyOnHand := jsNumOrZero (findFieldValue row FIELD_MAPPINGS.qtyOnHand)
  qtyShort := jsNumOrZero (findFieldValue row FIELD_MAPPINGS.qtyShort)
  ui := jsOr (findFieldValue row FIELD_MAPPINGS.ui) (.str "")
  notes := jsOr (findFieldValue row FIELD_MAPPINGS.notes) (.str "")
  photos := none

/-- `parseRow` of `spreadsheetUtils.ts` lines 121-145: build the literal, then
`if (!item.qtyShort) item.qtyShort = calculateQtyShort(...)` (a number is
falsy exactly when it is `0`, `NaN` having already been replaced by `0`). -/
def parseRow (row : Row) : ParsedItem :=
  if (parseRowBase row).qtyShort = 0 then
    { parseRowBase row with
      qtyShort := calculateQtyShort (parseRowBase row).qtyAuthorized (parseRowBase row).qtyOnHand }
  else parseRowBase row

/-- `parseRow` applied to an arbitrary element of `sheet_to_json`'s output: a
value that is not a mapping at all makes `Object.keys` throw, and `parseRow`
rethrows (lines 141-144); on a mapping it is total. -/
def parseRowE : Option Row → Except String ParsedItem
  | some row => .ok (parseRow row)
  | none => .error "row is not a mapping"

/-- The row-processing core of `parseSpreadsheet` (`spreadsheetUtils.ts` lines
93-119): `jsonData.map(row => parseRow(row))` runs inside the single
`try/catch` of `reader.onload`, so the first row that throws rejects the whole
promise and no items are delivered. -/
def parseSpreadsheetRows : List (Option Row) → Except String (List ParsedItem)
  | [] => .ok []
  | r :: rest =>
    match parseRowE r with
    | .error e => .error e
    | .ok item =>
      match parseSpreadsheetRows rest with
      | .error e => .error e
      | .ok items => .ok (item :: items)

/-- Specification-shaped resolver, written from the spec's words for claim C4:
the value stored under (the key matching) the first alias in the configured
alias list whose spelling matches a key of the row case-insensitively;
`none` when no alias matches. -/
def resolveSpec (row : Row) (fieldNames : List String) : Option CellValue :=
  match fieldNames.find? (fun n => row.any (fun kv => toLowerJS kv.1 == toLowerJS n)) with
  | some n => (row.find? (fun kv => toLowerJS kv.1 == toLowerJS n)).map Prod.snd
  | none => none

/-- `ItemInstance` of `db/database.ts`. -/
structure ItemInstance where
  id : Option Nat := none
  parentItemId : Nat
  serialNumber : String
  location : String
  conditionCode : String
  lastVerified : Option Nat := none
deriving DecidableEq

/-- `InventoryItem` of `db/database.ts`: the declared interface shape, as held
in the record store and handled by `logUtils.ts` and `App.tsx`. -/
structure InventoryItem where
  id : Option Nat := none
  isFlagged : Bool
  photos : List String
  notes : Option String := none
  name : String
  lin : String
  nsn : String
  ui : String
  qtyAuthorized : ℚ
  qtyOnHand : ℚ
  qtyShort : ℚ
deriving DecidableEq

/-- `LogAction` of `db/database.ts`. -/
inductive LogAction
  | ITEM_ADD | EDIT | DELETE | EXPORT | IMPORT | PHOTO_ADD | PHOTO_DELETE
  | FLAGGED | UNFLAGGED | VERIFIED | NOTES | INSTANCE_ADD | INSTANCE_EDIT | INSTANCE_DELETE
deriving DecidableEq

/-- A JS value occurring as a `from`/`to` member of a change record. -/
inductive JsVal
  | b (x : Bool)
  | s (x : String)
  | q (x : ℚ)
  | n (x : Nat)
  | undefinedVal
deriving DecidableEq

/-- One `changes.<field> = { from, to }` assignment made by `logItemUpdate`. -/
structure FieldChange where
  field : String
  fromVal : JsVal
  toVal : JsVal
deriving DecidableEq

/-- The `changes?: Record<string, any>` payload of a `LogEntry`, as the shapes
actually constructed in the source: the ordered field-change record built by
`logItemUpdate`, the `deletedItemFields` snapshot built by `handleItemDelete`
(name, lin, nsn, qtyAuthorized, qtyOnHand, qtyShort), or an empty record. -/
inductive LogPayload
  | fieldChanges (cs : List FieldChange)
  | deletedItemFields (name lin nsn : String) (qtyAuthorized qtyOnHand qtyShort : ℚ)
  | emptyPayload
deriving DecidableEq

/-- `LogEntry` of `db/database.ts`; `timestamp` is an abstract clock value. -/
structure LogEntry where
  id : Option Nat := none
  timestamp : Nat
  action : LogAction
  itemId : Option Nat := none
  instanceId : Option Nat := none
  changes : Option LogPayload := none
deriving DecidableEq

/-- The log store's `db.logs.add`: the collaborator either appends the entry,
assigning the next auto-increment id, or is unavailable and throws
(`ok = false`). -/
def dbLogsAdd (ok : Bool) (st : List LogEntry) (entry : LogEntry) :
    Except String (List LogEntry × Nat) :=
  if ok then .ok (st ++ [{ entry with id := some st.length }], st.length)
  else .error "log store append failed"

/-- `logInventoryActivity` of `logUtils.ts` lines 9-32: build the entry
(`itemId` is `item.id`, the only property of `item` the function reads), try
`db.logs.add`, and on failure catch and return `-1`.  `ts` is the value of
`new Date()`. -/
def logInventoryActivity (ok : Bool) (ts : Nat) (st : List LogEntry)
    (action : LogAction) (itemId : Option Nat) (changes : Option LogPayload) :
    List LogEntry × Int :=
  let logEntry : LogEntry := { timestamp := ts, action := action, itemId := itemId, changes := changes }
  match dbLogsAdd ok st logEntry with
  | .ok (st2, idNew) => (st2, Int.ofNat idNew)
  | .error _ => (st, -1)

/-- The JS value of an optional-string property as it lands in a change
record: the string, or `undefined`. -/
def jsOfNotes : Option String → JsVal
  | some s => .s s
  | none => .undefinedVal

/-- The change-detection body of `logItemUpdate` (`logUtils.ts` lines 42-112):
field-by-field `!==` comparison, in source insertion order, photos compared by
length only. -/
def computeChanges (oldItem newItem : InventoryItem) : List FieldChange :=
  (if oldItem.isFlagged ≠ newItem.isFlagged then
    [⟨"isFlagged", .b oldItem.isFlagged, .b newItem.isFlagged⟩] else []) ++
  (if oldItem.photos.length ≠ newItem.photos.length then
    [⟨"photos", .n oldItem.photos.length, .n newItem.photos.length⟩] else []) ++
  (if oldItem.notes ≠ newItem.notes then
    [⟨"notes", jsOfNotes oldItem.notes, jsOfNotes newItem.notes⟩] else []) ++
  (if oldItem.name ≠ newItem.name then
    [⟨"name", .s oldItem.name, .s newItem.name⟩] else []) ++
  (if oldItem.lin ≠ newItem.lin then
    [⟨"lin", .s oldItem.lin, .s newItem.lin⟩] else []) ++
  (if oldItem.nsn ≠ newItem.nsn then
    [⟨"nsn", .s oldItem.nsn, .s newItem.nsn⟩] else []) ++
  (if oldItem.qtyAuthorized ≠ newItem.qtyAuthorized then
    [⟨"qtyAuthorized", .q oldItem.qtyAuthorized, .q newItem.qtyAuthorized⟩] else []) ++
  (if oldItem.qtyOnHand ≠ newItem.qtyOnHand then
    [⟨"qtyOnHand", .q oldItem.qtyOnHand, .q newItem.qtyOnHand⟩] else []) ++
  (if oldItem.qtyShort ≠ newItem.qtyShort then
    [⟨"qtyShort", .q oldItem.qtyShort, .q newItem.qtyShort⟩] else [])

/-- `logItemUpdate` of `logUtils.ts` lines 37-124: detect changes; if none
were detected return `-1` without logging, else pass the change set to
`logInventoryActivity` with the new item. -/
def logItemUpdate (ok : Bool) (ts : Nat) (st : List LogEntry)
    (oldItem newItem : InventoryItem) (action : LogAction) : List LogEntry × Int :=
  let changes := computeChanges oldItem newItem
  if changes = [] then (st, -1)
  else logInventoryActivity ok ts st action newItem.id (some (.fieldChanges changes))

/-- Opaque rendering of `new Date(t).toLocaleString()` used by the exporter. -/
def dateLocaleString (t : Nat) : String := toString t

/-- The per-item export object of `exportToSpreadsheet` (`spreadsheetUtils.ts`
lines 153-177), applied to a parsed item; `firstInstance` is the first element
of the item's instance list when available. -/
def exportRow (item : ParsedItem) (firstInstance : Option ItemInstance) : Row :=
  [ ("Nomenclature", item.name),
    ("LIN", item.lin),
    ("NSN", item.nsn),
    ("Qty Authorized", .num item.qtyAuthorized),
    ("Qty On Hand", .num item.qtyOnHand),
    ("Qty Short", .num item.qtyShort),
    ("UI", item.ui),
    ("Notes", jsOr (some item.notes) (.str "")),
    ("Flagged", .str (if item.isFlagged then "Yes" else "No")),
    ("Serial Number", .str (match firstInstance with | some i => i.serialNumber | none => "")),
    ("Condition Code", .str (match firstInstance with | some i => i.conditionCode | none => "")),
    ("Location", .str (match firstInstance with | some i => i.location | none => "")),
    ("Last Verified", .str (match firstInstance.bind (fun i => i.lastVerified) with
      | some t => dateLocaleString t
      | none => "")) ]

/-- The application state touched by `handleItemDelete`: the record store's
items and instances and the log store's entries. -/
structure AppState where
  items : List InventoryItem
  instances : List ItemInstance
  logs : List LogEntry
deriving DecidableEq

/-- `handleItemDelete` of `App.tsx` lines 217-261: look up the item; if absent
return; delete its instances, delete the item, then log a `DELETE` entry whose
payload snapshots the deleted item's name, lin, nsn and quantities. -/
def handleItemDelete (ok : Bool) (ts : Nat) (st : AppState) (itemId : Nat) : AppState :=
  match st.items.find? (fun item => item.id == some itemId) with
  | none => st
  | some itemToDelete =>
    let instances2 := st.instances.filter (fun inst => !(inst.parentItemId == itemId))
    let items2 := st.items.filter (fun item => !(item.id == some itemId))
    let logs2 := (logInventoryActivity ok ts st.logs .DELETE itemToDelete.id
      (some (.deletedItemFields itemToDelete.name itemToDelete.lin itemToDelete.nsn
        itemToDelete.qtyAuthorized itemToDelete.qtyOnHand itemToDelete.qtyShort))).1
    { items := items2, instances := instances2, logs := logs2 }

section Lemmas

lemma jsNumOrZero_num (q : ℚ) : jsNumOrZero (some (.num q)) = q := rfl

lemma jsOr_of_truthy {c : CellValue} (d : CellValue) (h : c.truthy = true) :
    jsOr (some c) d = c := by
  simp [jsOr, h]

lemma jsOr_shape (v : Option CellValue) :
    (jsOr v (.str "")).truthy = true ∨ jsOr v (.str "") = .str "" := by
  cases v with
  | none => exact Or.inr rfl
  | some x =>
    cases hx : x.truthy with
    | true => exact Or.inl (by simp [jsOr, hx])
    | false => exact Or.inr (by simp [jsOr, hx])

lemma jsOr_idem (v : Option CellValue) :
    jsOr (some (jsOr v (.str ""))) (.str "") = jsOr v (.str "") := by
  rcases jsOr_shape v with h | h
  · exact jsOr_of_truthy _ h
  · rw [h]; rfl

lemma parseRow_photos (row : Row) : (parseRow row).photos = none := by
  unfold parseRow; split <;> rfl

lemma parseRow_isFlagged (row : Row) :
    (parseRow row).isFlagged = parseFlagValue (findFieldValue row FIELD_MAPPINGS.isFlagged) := by
  unfold parseRow; split <;> rfl

lemma parseRow_name (row : Row) :
    (parseRow row).name = jsOr (findFieldValue row FIELD_MAPPINGS.name) (.str "") := by
  unfold parseRow; split <;> rfl

lemma parseRow_lin (row : Row) :
    (parseRow row).lin = jsOr (findFieldValue row FIELD_MAPPINGS.lin) (.str "") := by
  unfold parseRow; split <;> rfl

lemma parseRow_nsn (row : Row) :
    (parseRow row).nsn = jsOr (findFieldValue row FIELD_MAPPINGS.nsn) (.str "") := by
  unfold parseRow; split <;> rfl

lemma parseRow_ui (row : Row) :
    (parseRow row).ui = jsOr (findFieldValue row FIELD_MAPPINGS.ui) (.str "") := by
  unfold parseRow; split <;> rfl

lemma parseRow_notes (row : Row) :
    (parseRow row).notes = jsOr (findFieldValue row FIELD_MAPPINGS.notes) (.str "") := by
  unfold parseRow; split <;> rfl

lemma parseRow_qtyAuthorized (row : Row) :
    (parseRow row).qtyAuthorized = jsNumOrZero (findFieldValue row FIELD_MAPPINGS.qtyAuthorized) := by
  unfold parseRow; split <;> rfl

lemma parseRow_qtyOnHand (row : Row) :
    (parseRow row).qtyOnHand = jsNumOrZero (findFieldValue row FIELD_MAPPINGS.qtyOnHand) := by
  unfold parseRow; split <;> rfl

lemma parseRow_qtyShort_eq (row : Row) :
    (parseRow row).qtyShort =
      if (parseRowBase row).qtyShort = 0 then
        calculateQtyShort (parseRowBase row).qtyAuthorized (parseRowBase row).qtyOnHand
      else (parseRowBase row).qtyShort := by
  by_cases h : (parseRowBase row).qtyShort = 0 <;> simp [parseRow, h]

lemma parseRow_short_zero (row : Row) (h : (parseRow row).qtyShort = 0) :
    calculateQtyShort (parseRow row).qtyAuthorized (parseRow row).qtyOnHand = 0 := by
  by_cases hb : (parseRowBase row).qtyShort = 0
  · simpa [parseRow, hb] using h
  · simp [parseRow, hb] at h

lemma find_export_name (i : ParsedItem) (inst : Option ItemInstance) :
    findFieldValue (exportRow i inst) FIELD_MAPPINGS.name = some i.name := by rfl

lemma find_export_lin (i : ParsedItem) (inst : Option ItemInstance) :
    findFieldValue (exportRow i inst) FIELD_MAPPINGS.lin = some i.lin := by rfl

lemma find_export_nsn (i : ParsedItem) (inst : Option ItemInstance) :
    findFieldValue (exportRow i inst) FIELD_MAPPINGS.nsn = some i.nsn := by rfl

lemma find_export_ui (i : ParsedItem) (inst : Option ItemInstance) :
    findFieldValue (exportRow i inst) FIELD_MAPPINGS.ui = some i.ui := by rfl

lemma find_export_notes (i : ParsedItem) (inst : Option ItemInstance) :
    findFieldValue (exportRow i inst) FIELD_MAPPINGS.notes
      = some (jsOr (some i.notes) (.str "")) := by rfl

lemma find_export_isFlagged (i : ParsedItem) (inst : Option ItemInstance) :
    findFieldValue (exportRow i inst) FIELD_MAPPINGS.isFlagged
      = some (.str (if i.isFlagged then "Yes" else "No")) := by rfl

lemma find_export_qtyAuthorized (i : ParsedItem) (inst : Option ItemInstance) :
    findFieldValue (exportRow i inst) FIELD_MAPPINGS.qtyAuthorized
      = some (.num i.qtyAuthorized) := by rfl

lemma find_export_qtyOnHand (i : ParsedItem) (inst : Option ItemInstance) :
    findFieldValue (exportRow i inst) FIELD_MAPPINGS.qtyOnHand
      = some (.num i.qtyOnHand) := by rfl

lemma find_export_qtyShort (i : ParsedItem) (inst : Option ItemInstance) :
    findFieldValue (exportRow i inst) FIELD_MAPPINGS.qtyShort
      = some (.num i.qtyShort) := by rfl

end Lemmas

section Claims

/-- Row with authorized and on-hand present and an explicit nonzero shortage. -/
def c1Row : Row := [("Qty Authorized", .num 10), ("Qty On Hand", .num 7), ("Qty Short", .num 5)]

/-- C1 counterexample: in a row where both the authorized quantity (10) and the
on-hand quantity (7) are present, an explicit shortage cell of 5 wins: the
normalized `qtyShort` is 5, not the derived `max 0 (10 - 7) = 3`. -/
theorem c1_explicit_short_wins_cex :
    (parseRow c1Row).qtyAuthorized = 10 ∧ (parseRow c1Row).qtyOnHand = 7 ∧
    (parseRow c1Row).qtyShort = 5 ∧
    (parseRow c1Row).qtyShort
      ≠ max 0 ((parseRow c1Row).qtyAuthorized - (parseRow c1Row).qtyOnHand) := by
  have h5 : (parseRow c1Row).qtyShort = 5 := by decide
  have ha : (parseRow c1Row).qtyAuthorized = 10 := by rfl
  have ho : (parseRow c1Row).qtyOnHand = 7 := by rfl
  refine ⟨ha, ho, h5, ?_⟩
  rw [h5, ha, ho]
  norm_num

/-- C1 (amended): the explicit shortage cell wins whenever it parses to a
nonzero number, even when authorized and on-hand are present; the normalized
`qtyShort` equals `max 0 (qtyAuthorized - qtyOnHand)` exactly when the
explicit shortage value is missing, unparsable or zero. -/
theorem parseRow_qtyShort_policy (row : Row) :
    (jsNumOrZero (findFieldValue row FIELD_MAPPINGS.qtyShort) = 0 →
      (parseRow row).qtyShort
        = max 0 ((parseRow row).qtyAuthorized - (parseRow row).qtyOnHand)) ∧
    (jsNumOrZero (findFieldValue row FIELD_MAPPINGS.qtyShort) ≠ 0 →
      (parseRow row).qtyShort = jsNumOrZero (findFieldValue row FIELD_MAPPINGS.qtyShort)) := by
  have hb : (parseRowBase row).qtyShort
      = jsNumOrZero (findFieldValue row FIELD_MAPPINGS.qtyShort) := rfl
  constructor
  · intro h
    rw [parseRow_qtyShort_eq, if_pos (hb.trans h), parseRow_qtyAuthorized, parseRow_qtyOnHand]
    rfl
  · intro h
    rw [parseRow_qtyShort_eq, if_neg (fun hh => h (hb.symm.trans hh))]
    exact hb

/-- Row for the C1 witness: both quantities present, no explicit shortage. -/
def c1WRow : Row := [("Qty Authorized", .num 10), ("Qty On Hand", .num 7)]

/-- Witness for C1 (amended) at a concrete row. -/
theorem parseRow_qtyShort_policy_witness :
    jsNumOrZero (findFieldValue c1WRow FIELD_MAPPINGS.qtyShort) = 0 ∧
    (parseRow c1WRow).qtyShort
      = max 0 ((parseRow c1WRow).qtyAuthorized - (parseRow c1WRow).qtyOnHand) :=
  ⟨rfl, (parseRow_qtyShort_policy c1WRow).1 rfl⟩

/-- Row whose only cell is a numeric `Notes` column. -/
def c2Row : Row := [("Notes", CellValue.num 5)]

/-- C2: evaluating the code at the failing input.  The normalized record's
`photos` property is `undefined` (absent), never a list — the object literal
in `parseRow` omits it, contradicting the declared `InventoryItem` interface
(`photos: string[]`) and the unconditional `oldItem.photos.length` access in
`logItemUpdate` — and `notes` can hold a non-string cell value (here the
number 5), so `notes` is neither a string nor absent. -/
theorem parseRow_photos_notes_cex :
    (parseRow c2Row).photos = none ∧
    (parseRow c2Row).notes = CellValue.num 5 ∧
    (parseRow c2Row).notes.isStr = false := by
  refine ⟨by rfl, by decide, by decide⟩

/-- Actual behavior of `parseRow` on every mapping row (cf. C2): it never
throws; the resulting record's `photos` field is always absent (no photo list
is attached), and its `notes` field is always present, holding the raw
resolved notes cell, or the empty string when that is missing or falsy. -/
theorem parseRow_total_photos_absent_notes_present (row : Row) :
    parseRowE (some row) = Except.ok (parseRow row) ∧
    (parseRow row).photos = none ∧
    (parseRow row).notes = jsOr (findFieldValue row FIELD_MAPPINGS.notes) (CellValue.str "") :=
  ⟨rfl, parseRow_photos row, parseRow_notes row⟩

/-- `Except.isOk`-style discriminator for import results. -/
def exceptIsOk {ε α : Type} : Except ε α → Bool
  | .ok _ => true
  | .error _ => false

/-- Batch of 3 rows whose second element is not a mapping. -/
def c3Rows : List (Option Row) :=
  [some [("Nomenclature", .str "Item A")], none, some [("Nomenclature", .str "Item B")]]

/-- C3 counterexample: with 3 rows of which the one at index 1 is malformed,
the import does not produce a summary with `accepted = 2`; the whole batch
fails with the malformed row's error and no list of records is produced at
all. -/
theorem parseSpreadsheet_malformed_row_cex :
    parseSpreadsheetRows c3Rows = Except.error "row is not a mapping" ∧
    exceptIsOk (parseSpreadsheetRows c3Rows) = false :=
  ⟨rfl, rfl⟩

/-- C3 (amended): a malformed (non-mapping) row makes the whole import fail —
`parseSpreadsheet` rejects with that row's error and delivers no items, there
is no per-row error recovery and no accepted/rejected summary; only a batch
in which every row is a mapping yields the full list of normalized records. -/
theorem parseSpreadsheetRows_all_or_nothing (rows : List (Option Row)) :
    (none ∈ rows → parseSpreadsheetRows rows = Except.error "row is not a mapping") ∧
    ((∀ r ∈ rows, r ≠ none) →
      parseSpreadsheetRows rows = Except.ok (rows.map (fun r => parseRow (r.getD [])))) := by
  induction rows with
  | nil =>
    exact ⟨fun h => absurd h (List.not_mem_nil none), fun _ => rfl⟩
  | cons r rest ih =>
    constructor
    · intro h
      rcases List.mem_cons.mp h with h0 | h1
      · subst h0
        rfl
      · cases r with
        | none => rfl
        | some row =>
          show (match parseSpreadsheetRows rest with
            | Except.error e => Except.error e
            | Except.ok items => Except.ok (parseRow row :: items)) = _
          rw [ih.1 h1]
    · intro h
      have hr : r ≠ none := h r (List.mem_cons_self r rest)
      cases r with
      | none => exact absurd rfl hr
      | some row =>
        show (match parseSpreadsheetRows rest with
          | Except.error e => Except.error e
          | Except.ok items => Except.ok (parseRow row :: items)) = _
        rw [ih.2 (fun x hx => h x (List.mem_cons_of_mem _ hx))]
        rfl

/-- A well-formed two-row batch. -/
def c1WRowBatch : List (Option Row) :=
  [some [("Nomenclature", .str "Item A")], some [("Nomenclature", .str "Item B")]]

/-- Witness for C3 (amended) at concrete batches: the batch `c3Rows` contains
a malformed row and fails whole; a two-row well-formed batch yields both
records. -/
theorem parseSpreadsheetRows_all_or_nothing_witness :
    (none ∈ c3Rows ∧ parseSpreadsheetRows c3Rows = Except.error "row is not a mapping") ∧
    ((∀ r ∈ c1WRowBatch, r ≠ none) ∧
      parseSpreadsheetRows c1WRowBatch
        = Except.ok (c1WRowBatch.map (fun r => parseRow (r.getD [])))) :=
  ⟨⟨by decide, (parseSpreadsheetRows_all_or_nothing c3Rows).1 (by decide)⟩,
   ⟨by decide, (parseSpreadsheetRows_all_or_nothing c1WRowBatch).2 (by decide)⟩⟩

/-- A fold that overwrites on a match returns its accumulator when nothing
matches. -/
lemma foldl_keys_no_match (l : List (String × CellValue)) (lower : String)
    (acc : Option String) (h : ∀ kv ∈ l, toLowerJS kv.1 ≠ lower) :
    l.foldl (fun acc kv => if toLowerJS kv.1 = lower then some kv.1 else acc) acc = acc := by
  induction l generalizing acc with
  | nil => rfl
  | cons kv rest ih =>
    have h1 : toLowerJS kv.1 ≠ lower := h kv (List.mem_cons_self kv rest)
    rw [List.foldl_cons, if_neg h1]
    exact ih acc (fun x hx => h x (List.mem_cons_of_mem _ hx))

/-- When the row's lower-cased keys are pairwise distinct, the last-wins key
map agrees with the first matching key. -/
lemma rowKeysMapGet_eq_find (row : Row) (lower : String)
    (h : (row.map (fun kv => toLowerJS kv.1)).Nodup) :
    rowKeysMapGet row lower
      = (row.find? (fun kv => toLowerJS kv.1 == lower)).map Prod.fst := by
  induction row with
  | nil => rfl
  | cons kv rest ih =>
    rw [List.map_cons, List.nodup_cons] at h
    by_cases hk : toLowerJS kv.1 = lower
    · have hrest : ∀ x ∈ rest, toLowerJS x.1 ≠ lower := by
        intro x hx hlx
        exact h.1 (hk ▸ hlx ▸ List.mem_map_of_mem (fun kv => toLowerJS kv.1) hx)
      rw [List.find?_cons_of_pos _ (by simpa using hk)]
      show List.foldl _ (if toLowerJS kv.1 = lower then some kv.1 else none) rest = _
      rw [if_pos hk, foldl_keys_no_match rest lower _ hrest]
      rfl
    · rw [List.find?_cons_of_neg _ (by simpa using hk)]
      show List.foldl _ (if toLowerJS kv.1 = lower then some kv.1 else none) rest = _
      rw [if_neg hk]
      exact ih h.2

/-- With pairwise distinct keys, looking up the key of the pair that `find?`
returned yields that pair's value. -/
lemma lookup_of_find (row : Row) (p : String × CellValue → Bool)
    (kv : String × CellValue) (hnd : (row.map Prod.fst).Nodup)
    (hfind : row.find? p = some kv) :
    List.lookup kv.1 row = some kv.2 := by
  induction row with
  | nil => simp at hfind
  | cons hd rest ih =>
    rw [List.map_cons, List.nodup_cons] at hnd
    by_cases hp : p hd
    · rw [List.find?_cons_of_pos _ hp] at hfind
      injection hfind with he
      subst he
      simp [List.lookup]
    · rw [List.find?_cons_of_neg _ hp] at hfind
      have hkv : kv ∈ rest := List.mem_of_find?_eq_some hfind
      have hne : kv.1 ≠ hd.1 := by
        intro he
        exact hnd.1 (he ▸ List.mem_map_of_mem Prod.fst hkv)
      have hbeq : (kv.1 == hd.1) = false := by simpa using hne
      have hstep : List.lookup kv.1 (hd :: rest) = List.lookup kv.1 rest := by
        simp [List.lookup, hbeq]
      rw [hstep]
      exact ih hnd.2 hfind

/-- When no alias in a row matches case-insensitively, the key map misses. -/
lemma rowKeysMapGet_none (row : Row) (lower : String)
    (h : ∀ kv ∈ row, toLowerJS kv.1 ≠ lower) :
    rowKeysMapGet row lower = none :=
  foldl_keys_no_match row lower none h

/-- C4: with a row whose headers are pairwise distinct case-insensitively,
`findFieldValue` returns the raw value stored under the first alias in the
configured alias list that matches a key of the row case-insensitively, alias
order being a priority, and returns `undefined` when no alias matches:
it coincides with the specification-shaped resolver `resolveSpec`. -/
theorem findFieldValue_matches_resolveSpec (row : Row) (fieldNames : List String)
    (h : (row.map (fun kv => toLowerJS kv.1)).Nodup) :
    findFieldValue row fieldNames = resolveSpec row fieldNames := by
  have hnd1 : (row.map Prod.fst).Nodup := by
    have h2 : ((row.map Prod.fst).map toLowerJS).Nodup := by
      rw [List.map_map]; exact h
    exact h2.of_map toLowerJS
  induction fieldNames with
  | nil => rfl
  | cons n rest ih =>
    by_cases hm : ∃ kv ∈ row, toLowerJS kv.1 = toLowerJS n
    · have hsome : (row.find? (fun kv => toLowerJS kv.1 == toLowerJS n)).isSome := by
        obtain ⟨kv0, hmem, heq⟩ := hm
        exact List.find?_isSome.mpr ⟨kv0, hmem, by simpa using heq⟩
      obtain ⟨kv1, hkv1⟩ := Option.isSome_iff_exists.mp hsome
      have hmap : rowKeysMapGet row (toLowerJS n) = some kv1.1 := by
        rw [rowKeysMapGet_eq_find row _ h, hkv1]
        rfl
      have hany : row.any (fun kv => toLowerJS kv.1 == toLowerJS n) = true := by
        obtain ⟨kv0, hmem, heq⟩ := hm
        exact List.any_eq_true.mpr ⟨kv0, hmem, by simpa using heq⟩
      have hlook := lookup_of_find row _ kv1 hnd1 hkv1
      show (match rowKeysMapGet row (toLowerJS n) with
        | some key => List.lookup key row
        | none => findFieldValue row rest) = resolveSpec row (n :: rest)
      rw [hmap]
      show List.lookup kv1.1 row = resolveSpec row (n :: rest)
      rw [hlook]
      simp [resolveSpec, List.find?_cons, hany, hkv1]
    · have hnone : rowKeysMapGet row (toLowerJS n) = none := by
        apply rowKeysMapGet_none
        intro kv hkv heq
        exact hm ⟨kv, hkv, heq⟩
      have hanyf : (row.any fun kv => toLowerJS kv.1 == toLowerJS n) = false := by
        rw [List.any_eq_false]
        intro kv hkv
        simp only [beq_iff_eq]
        exact fun hc => hm ⟨kv, hkv, hc⟩
      show (match rowKeysMapGet row (toLowerJS n) with
        | some key => List.lookup key row
        | none => findFieldValue row rest) = resolveSpec row (n :: rest)
      rw [hnone]
      show findFieldValue row rest = resolveSpec row (n :: rest)
      rw [ih]
      simp only [resolveSpec, List.find?_cons, hanyf]

/-- A row for the C4 witness (keys distinct case-insensitively). -/
def c4Row : Row := [("nsn #", .str "1005"), ("Desc", .str "x")]

/-- Witness for C4 at a concrete row and alias list: the second alias of the
nsn table matches nothing, the fourth (`NSN #`) matches `nsn #`
case-insensitively. -/
theorem findFieldValue_matches_resolveSpec_witness :
    ((c4Row.map (fun kv => toLowerJS kv.1)).Nodup ∧
      findFieldValue c4Row FIELD_MAPPINGS.nsn = resolveSpec c4Row FIELD_MAPPINGS.nsn) ∧
    findFieldValue c4Row FIELD_MAPPINGS.nsn = some (.str "1005") ∧
    findFieldValue c4Row FIELD_MAPPINGS.lin = none :=
  ⟨⟨by decide, findFieldValue_matches_resolveSpec c4Row FIELD_MAPPINGS.nsn (by decide)⟩,
    by rfl, by rfl⟩

/-- C5: normalizing a row, exporting the normalized record through the
tabular export shape, and normalizing the exported row again reproduces the
normalized record exactly — every canonical field preserved by the export
headers (name, lin, nsn, quantities, ui, notes, isFlagged) round-trips. -/
theorem normalize_export_normalize_roundtrip (row : Row) (inst : Option ItemInstance) :
    parseRow (exportRow (parseRow row) inst) = parseRow row := by
  refine ParsedItem.ext ?_ ?_ ?_ ?_ ?_ ?_ ?_ ?_ ?_ ?_
  · rw [parseRow_isFlagged, find_export_isFlagged]
    cases hb : (parseRow row).isFlagged <;> decide
  · rw [parseRow_name (exportRow (parseRow row) inst), find_export_name, parseRow_name row]
    exact jsOr_idem _
  · rw [parseRow_lin (exportRow (parseRow row) inst), find_export_lin, parseRow_lin row]
    exact jsOr_idem _
  · rw [parseRow_nsn (exportRow (parseRow row) inst), find_export_nsn, parseRow_nsn row]
    exact jsOr_idem _
  · rw [parseRow_qtyAuthorized (exportRow (parseRow row) inst), find_export_qtyAuthorized]
    exact jsNumOrZero_num _
  · rw [parseRow_qtyOnHand (exportRow (parseRow row) inst), find_export_qtyOnHand]
    exact jsNumOrZero_num _
  · rw [parseRow_qtyShort_eq (exportRow (parseRow row) inst)]
    have hs : (parseRowBase (exportRow (parseRow row) inst)).qtyShort
        = (parseRow row).qtyShort := by rfl
    have ha : (parseRowBase (exportRow (parseRow row) inst)).qtyAuthorized
        = (parseRow row).qtyAuthorized := by rfl
    have ho : (parseRowBase (exportRow (parseRow row) inst)).qtyOnHand
        = (parseRow row).qtyOnHand := by rfl
    rw [hs, ha, ho]
    by_cases h : (parseRow row).qtyShort = 0
    · rw [if_pos h, parseRow_short_zero row h, h]
    · rw [if_neg h]
  · rw [parseRow_ui (exportRow (parseRow row) inst), find_export_ui, parseRow_ui row]
    exact jsOr_idem _
  · rw [parseRow_notes (exportRow (parseRow row) inst), find_export_notes, parseRow_notes row]
    rw [jsOr_idem, jsOr_idem]
  · rw [parseRow_photos, parseRow_photos]

/-- C6: diffing a record against itself yields an empty change set, and
`logItemUpdate` on two identical snapshots appends nothing to the log store
and returns the `-1` sentinel instead of logging. -/
theorem diff_self_empty_not_logged (x : InventoryItem) (ok : Bool) (ts : Nat)
    (st : List LogEntry) (action : LogAction) :
    computeChanges x x = [] ∧ logItemUpdate ok ts st x x action = (st, -1) := by
  have h : computeChanges x x = [] := by simp [computeChanges]
  exact ⟨h, by simp [logItemUpdate, h]⟩

/-- C7: when the log store's append throws, `logInventoryActivity` catches the
failure and returns `-1` with the log unchanged — it never propagates the
exception, so a failed log write cannot undo a completed record mutation. -/
theorem record_degrades_on_log_store_failure (ts : Nat) (st : List LogEntry)
    (action : LogAction) (itemId : Option Nat) (changes : Option LogPayload) :
    (∀ entry : LogEntry, dbLogsAdd false st entry = Except.error "log store append failed") ∧
    logInventoryActivity false ts st action itemId changes = (st, -1) :=
  ⟨fun _ => rfl, rfl⟩

/-- The single `DELETE` log entry written by `handleItemDelete`: its payload
snapshots the deleted item's name, lin, nsn and quantities. -/
def deleteEntry (ts : Nat) (nextId : Nat) (item : InventoryItem) : LogEntry where
  id := some nextId
  timestamp := ts
  action := .DELETE
  itemId := item.id
  changes := some (.deletedItemFields item.name item.lin item.nsn
    item.qtyAuthorized item.qtyOnHand item.qtyShort)

/-- C8: deleting a stored record removes it from the item store and appends
exactly one `DELETE` log entry whose payload snapshots the deleted record's
name (nomenclature), lin and nsn (with its quantities), even though the
record no longer exists in the store afterwards. -/
theorem handleItemDelete_logs_one_entry (ts : Nat) (st : AppState) (itemId : Nat)
    (item : InventoryItem)
    (h : st.items.find? (fun it => it.id == some itemId) = some item) :
    (∀ it ∈ (handleItemDelete true ts st itemId).items, it.id ≠ some itemId) ∧
    (handleItemDelete true ts st itemId).logs
      = st.logs ++ [deleteEntry ts st.logs.length item] := by
  constructor
  · intro it hmem
    unfold handleItemDelete at hmem
    rw [h] at hmem
    simp at hmem
    exact hmem.2
  · unfold handleItemDelete
    rw [h]
    rfl

/-- A stored record for the C8 witness. -/

def c8Item : InventoryItem :=
  { id := some 1, isFlagged := false, photos := [], notes := none, name := "Radio set",
    lin := "A1B2C3", nsn := "1005-01-123-4567", ui := "EA",
    qtyAuthorized := 2, qtyOnHand := 2, qtyShort := 0 }

/-- App state holding exactly the record to delete. -/
def c8State : AppState := { items := [c8Item], instances := [], logs := [] }

/-- Witness for C8 at a concrete state. -/
theorem handleItemDelete_logs_one_entry_witness :
    c8State.items.find? (fun it => it.id == some 1) = some c8Item ∧
    ((∀ it ∈ (handleItemDelete true 5 c8State 1).items, it.id ≠ some 1) ∧
      (handleItemDelete true 5 c8State 1).logs
        = c8State.logs ++ [deleteEntry 5 c8State.logs.length c8Item]) :=
  ⟨rfl, handleItemDelete_logs_one_entry 5 c8State 1 c8Item rfl⟩

/-- C9: change detection on photos compares list lengths only — two snapshots
whose photo lists have equal length contribute no photos delta to the change
set (even when the contents differ, so such an edit is never logged), and a
delta carrying exactly the before/after counts appears exactly when the
lengths differ. -/
theorem photos_diff_by_length_only (o n : InventoryItem) :
    (computeChanges o n).filter (fun c => c.field == "photos")
      = if o.photos.length = n.photos.length then []
        else [⟨"photos", .n o.photos.length, .n n.photos.length⟩] := by
  by_cases h : o.photos.length = n.photos.length <;>
    simp [computeChanges, List.filter_append, h,
      apply_ite (List.filter (fun c : FieldChange => c.field == "photos"))]

/-- C10: the alias tables for name and notes overlap on `Description` and
`Item Description`: a row whose only header is one of those (with a truthy
cell) feeds the same cell value into both the normalized record's name and
its notes. -/
theorem description_alias_feeds_name_and_notes (v : CellValue) (h : v.truthy = true) :
    ((parseRow [("Description", v)]).name = v ∧ (parseRow [("Description", v)]).notes = v) ∧
    ((parseRow [("Item Description", v)]).name = v ∧
      (parseRow [("Item Description", v)]).notes = v) := by
  have hn1 : findFieldValue [("Description", v)] FIELD_MAPPINGS.name = some v := by rfl
  have ht1 : findFieldValue [("Description", v)] FIELD_MAPPINGS.notes = some v := by rfl
  have hn2 : findFieldValue [("Item Description", v)] FIELD_MAPPINGS.name = some v := by rfl
  have ht2 : findFieldValue [("Item Description", v)] FIELD_MAPPINGS.notes = some v := by rfl
  refine ⟨⟨?_, ?_⟩, ?_, ?_⟩
  · rw [parseRow_name, hn1]; exact jsOr_of_truthy _ h
  · rw [parseRow_notes, ht1]; exact jsOr_of_truthy _ h
  · rw [parseRow_name, hn2]; exact jsOr_of_truthy _ h
  · rw [parseRow_notes, ht2]; exact jsOr_of_truthy _ h

/-- Witness for C10 at a concrete cell value. -/
theorem description_alias_feeds_name_and_notes_witness :
    (CellValue.str "Radio set").truthy = true ∧
    (parseRow [("Description", CellValue.str "Radio set")]).name = CellValue.str "Radio set" ∧
    (parseRow [("Description", CellValue.str "Radio set")]).notes = CellValue.str "Radio set" :=
  ⟨by decide,
    (description_alias_feeds_name_and_notes _ (by decide)).1.1,
    (description_alias_feeds_name_and_notes _ (by decide)).1.2⟩

end Claims

end Armyaf
